import Mathlib

/-!
Verification of the StateZero Live Query Synchronization Engine against its
specification.  The repository under verification is documentation-only: the
engine itself (the `@statezero/core` client) ships in a separate package, so
every definition below is a shallow embedding modelled from the specification
text (data model §3, merge algorithm §4.2, lifecycle §4.3, registry §4.4,
synchronizer §4.5, persistence §4.6, external interfaces §6) and from the
behaviour described in the documentation pages.
-/

namespace StateZero

/-- Modelled from the spec (§3 Record): a mapping from field name to value plus
an `identity` (opaque primary key, here `Nat`) and a `collection` tag. -/
structure Record where
  identity : Nat
  collection : String
  fields : List (String × String)
deriving DecidableEq, Repr

/-- Field lookup on a record snapshot. -/
def Record.getField (r : Record) (name : String) : Option String :=
  (r.fields.find? (fun p => p.1 == name)).map (·.2)

/-- Modelled from the spec (§4.1 Record Store): keyed storage of entities by
(collection, identity); represented as a list with most recent `put` first. -/
def RecordStore := List Record

instance : DecidableEq RecordStore := by
  unfold RecordStore
  infer_instance

/-- `get(collection, identity) -> Record|absent` (spec §4.1). -/
def RecordStore.get (s : RecordStore) (c : String) (i : Nat) : Option Record :=
  List.find? (fun r => r.collection == c && r.identity == i) s

/-- `put(record)` overwrites unconditionally (spec §4.1). -/
def RecordStore.put (s : RecordStore) (r : Record) : RecordStore :=
  r :: List.filter (fun x => !(x.collection == r.collection && x.identity == r.identity)) s

/-- Modelled from the spec (§3 PendingOperation): mutation kinds. -/
inductive OpKind where
  | create
  | update
  | delete
deriving DecidableEq, Repr

/-- Modelled from the spec (§3/§4.3): lifecycle states of a pending operation. -/
inductive OpState where
  | optimistic
  | submitted
  | confirmed
  | rejected
deriving DecidableEq, Repr

/-- Modelled from the spec (§3 PendingOperation): correlation id, kind,
collection, optional target identity (none for a Create until confirmed),
payload, lifecycle state, creation timestamp. -/
structure PendingOperation where
  correlationId : Nat
  kind : OpKind
  collection : String
  targetIdentity : Option Nat
  payload : Record
  state : OpState
  createdAt : Nat
deriving DecidableEq, Repr

/-- The identity an operation acts on: the explicit target when present,
otherwise the payload's (temporary) identity. -/
def PendingOperation.target (op : PendingOperation) : Nat :=
  op.targetIdentity.getD op.payload.identity

/-- Modelled from the spec (§3 QueryDescriptor, §6): collection, canonical
string key, the local predicate evaluator `matches` supplied by the external
Query Compiler (`none` when the filter cannot be evaluated locally, e.g.
server-only or custom-queryset logic), an optional comparator for sort order,
a flag marking descending-time order (driving the default insert policy), and
the requested pagination window. -/
structure QueryDescriptor where
  collection : String
  canonicalKey : String
  matchesEval : Option (Record → Bool)
  compare : Option (Record → Record → Ordering)
  descendingTime : Bool
  offset : Nat
  limit : Option Nat

/-- Predicate evaluation when a local evaluator is available; a record with no
evaluator is conservatively treated as not matching (the synchronizer never
reaches this case: it falls back to a refetch, §4.5). -/
def QueryDescriptor.matchesB (d : QueryDescriptor) (r : Record) : Bool :=
  match d.matchesEval with
  | some m => m r
  | none => false

/-- Stable insertion of one operation into a createdAt-sorted list:
an operation goes before the first strictly-later one, so operations with
equal timestamps keep their insertion order (spec §5 tie-breaking). -/
def insertOp (x : PendingOperation) : List PendingOperation → List PendingOperation
  | [] => [x]
  | y :: ys => if x.createdAt ≤ y.createdAt then x :: y :: ys else y :: insertOp x ys

/-- Stable sort of the operation-log subset by increasing `createdAt`
(spec §4.2 step 2 ordering). -/
def sortOps : List PendingOperation → List PendingOperation
  | [] => []
  | x :: xs => insertOp x (sortOps xs)

/-- Comparator-directed insertion: walk the view and place the new identity
before the first element the comparator does not rank after it; identities
whose record cannot be resolved are walked past rather than compared. -/
def insertSorted (cmp : Record → Record → Ordering) (store : RecordStore)
    (c : String) (r : Record) (i : Nat) : List Nat → List Nat
  | [] => [i]
  | j :: js =>
    match store.get c j with
    | some rj =>
      if cmp r rj == Ordering.gt then j :: insertSorted cmp store c r i js
      else i :: j :: js
    | none => j :: insertSorted cmp store c r i js

/-- Modelled from the spec (§4.2 Create policy): position of an inserted
identity.  With a comparator, insert at the comparator-correct sorted
position; otherwise the default policy is "prepend for descending-time order,
else append". -/
def insertIdentity (d : QueryDescriptor) (store : RecordStore) (v : List Nat)
    (i : Nat) : List Nat :=
  match d.compare with
  | some cmp =>
    match store.get d.collection i with
    | none => v ++ [i]
    | some r => insertSorted cmp store d.collection r i v
  | none => if d.descendingTime then i :: v else v ++ [i]

/-- Modelled from the spec (§4.2 Update): if the updated record now fails the
filter predicate, remove its identity from the view; if it newly satisfies the
predicate, insert it; otherwise leave its position unchanged. -/
def applyUpdateRule (d : QueryDescriptor) (store : RecordStore) (v : List Nat)
    (i : Nat) (r : Record) : List Nat :=
  if d.matchesB r then
    if v.contains i then v else insertIdentity d store v i
  else
    List.filter (fun j => !(j == i)) v

/-- Modelled from the spec (§4.2 step 2): apply one pending operation to the
ordered identity list, resolving the operation's record snapshot through the
Record Store (falling back to the payload). -/
def applyOp (d : QueryDescriptor) (store : RecordStore) (v : List Nat)
    (op : PendingOperation) : List Nat :=
  match op.kind with
  | .create =>
    let i := op.target
    let r := (store.get op.collection i).getD op.payload
    if d.matchesB r && !(v.contains i) then insertIdentity d store v i else v
  | .update =>
    let i := op.target
    let r := (store.get op.collection i).getD op.payload
    applyUpdateRule d store v i r
  | .delete => List.filter (fun j => !(j == op.target)) v

/-- The operation-log subset relevant to a descriptor, in increasing
`createdAt` order (spec §3 QueryView, §4.2). -/
def relevantOps (d : QueryDescriptor) (log : List PendingOperation) :
    List PendingOperation :=
  sortOps (List.filter (fun op => op.collection == d.collection) log)

/-- Modelled from the spec (§4.2 steps 1–2): the pure fold of the pending
operations over the ground-truth identity list. -/
def mergeIdentities (d : QueryDescriptor) (store : RecordStore) (G : List Nat)
    (log : List PendingOperation) : List Nat :=
  (relevantOps d log).foldl (applyOp d store) G

/-- Modelled from the spec (§4.2 step 3): truncate to the requested window
only after the merge fold. -/
def paginate (d : QueryDescriptor) (v : List Nat) : List Nat :=
  match d.limit with
  | some n => (v.drop d.offset).take n
  | none => v.drop d.offset

/-- Modelled from the spec (§4.2 step 4): resolve each identity to a Record;
an unresolvable identity is dropped defensively. -/
def materialize (d : QueryDescriptor) (store : RecordStore) (v : List Nat) :
    List Record :=
  v.filterMap (store.get d.collection)

/-- Modelled from the spec (§3 QueryView, §4.2): the materialized view is a
pure function of (ground-truth page, Record Store, relevant log subset). -/
def computeQueryView (d : QueryDescriptor) (store : RecordStore) (G : List Nat)
    (log : List PendingOperation) : List Record :=
  materialize d store (paginate d (mergeIdentities d store G log))

/-- Modelled from the spec (§2, §4): the engine state a single query view
depends on — the Record Store, the ground-truth identity page for the
descriptor, the Operation Log, and the last materialized array handed to
subscribers. -/
structure EngineState where
  store : RecordStore
  groundTruth : List Nat
  log : List PendingOperation
  cachedView : List Record

/-- Modelled from the spec (§4.2): recomputation updates the cached
materialized array and returns it; it reads only ground truth, the store and
the log — never the previous cached result. -/
def recompute (d : QueryDescriptor) (s : EngineState) : EngineState × List Record :=
  let v := computeQueryView d s.store s.groundTruth s.log
  ({ s with cachedView := v }, v)

end StateZero

namespace StateZero

/-- C2 merge determinism.  Recomputing the QueryView twice on the same ground
truth `G`, operation-log subset and Record Store yields identical arrays: the
second recomputation, run on the state produced by the first, returns exactly
the first array — the merge is a pure function of its inputs with no
dependence on prior recomputations. -/
theorem merge_deterministic (d : QueryDescriptor) (s : EngineState) :
    (recompute d (recompute d s).1).2 = (recompute d s).2 ∧
    (recompute d s).2 = computeQueryView d s.store s.groundTruth s.log := by
  constructor <;> rfl

/-- Modelled from the spec (§4.3 On Rejected): the rollback removes the
rejected operation from the Operation Log; the subsequent recomputation is
the ordinary pure merge, with no separate undo logic. -/
def rejectOperation (cid : Nat) (log : List PendingOperation) :
    List PendingOperation :=
  List.filter (fun op => !(op.correlationId == cid)) log

theorem rejectOperation_of_fresh (cid : Nat) (A B : List PendingOperation)
    (op : PendingOperation) (hop : op.correlationId = cid)
    (hA : ∀ x ∈ A, x.correlationId ≠ cid) (hB : ∀ x ∈ B, x.correlationId ≠ cid) :
    rejectOperation cid (A ++ op :: B) = A ++ B := by
  unfold rejectOperation
  rw [List.filter_append, List.filter_cons]
  have hopf : (!(op.correlationId == cid)) = false := by simp [hop]
  rw [hopf]
  simp only [Bool.false_eq_true, if_false]
  rw [List.filter_eq_self.mpr, List.filter_eq_self.mpr]
  · intro x hx
    simp [hB x hx]
  · intro x hx
    simp [hA x hx]

/-- C1 rollback correctness.  For every ground-truth page `G`, Record Store,
descriptor, and Operation Log containing an operation `op` whose correlation
id appears nowhere else in the log, transitioning `op` to Rejected (removing
it) and recomputing yields exactly the array the merge algorithm produces on
`G` and the log with `op` never present: no residue of the rejected operation
remains in the materialized view. -/
theorem rollback_correct (d : QueryDescriptor) (store : RecordStore)
    (G : List Nat) (cache : List Record) (A B : List PendingOperation)
    (op : PendingOperation)
    (hA : ∀ x ∈ A, x.correlationId ≠ op.correlationId)
    (hB : ∀ x ∈ B, x.correlationId ≠ op.correlationId) :
    (recompute d
        { store := store, groundTruth := G,
          log := rejectOperation op.correlationId (A ++ op :: B),
          cachedView := cache }).2 =
      computeQueryView d store G (A ++ B) := by
  rw [rejectOperation_of_fresh op.correlationId A B op rfl hA hB]
  rfl

/-- A ticket record with a status field, for the concrete scenarios. -/
def ticket (i : Nat) (status : String) : Record :=
  { identity := i, collection := "ticket", fields := [("status", status)] }

/-- The "status=open" descriptor of the spec's scenarios (§8): plain filter,
no comparator, ascending order (so the default create policy appends), no
pagination window. -/
def openDescriptor : QueryDescriptor :=
  { collection := "ticket", canonicalKey := "ticket?status=open",
    matchesEval := some (fun r => r.getField "status" == some "open"),
    compare := none, descendingTime := false, offset := 0, limit := none }

/-- A concrete pending Create for the rollback witness. -/
def opC1 : PendingOperation :=
  { correlationId := 7, kind := .create, collection := "ticket",
    targetIdentity := none, payload := ticket 9 "open",
    state := .rejected, createdAt := 5 }

/-- Witness for C1 at a concrete log: rejecting the only pending operation
restores the merge over the empty log. -/
theorem rollback_correct_witness :
    (recompute openDescriptor
        { store := [ticket 1 "open", ticket 2 "open"], groundTruth := [1, 2],
          log := rejectOperation opC1.correlationId ([] ++ opC1 :: []),
          cachedView := [] }).2 =
      computeQueryView openDescriptor [ticket 1 "open", ticket 2 "open"]
        [1, 2] ([] ++ []) :=
  rollback_correct openDescriptor [ticket 1 "open", ticket 2 "open"] [1, 2] []
    [] [] opC1 (by simp) (by simp)

/-- Modelled from the spec (§2 data flow, §4.3, error guide "Optimistic
Operations (No await)"): a user-initiated Create appends an `Optimistic`
operation to the Operation Log, puts the payload snapshot into the Record
Store under its temporary client identity, and recomputes the affected
QueryView synchronously — nothing awaits a remote response. -/
def mutateCreate (d : QueryDescriptor) (payload : Record) (cid now : Nat)
    (s : EngineState) : EngineState :=
  let op : PendingOperation :=
    { correlationId := cid, kind := .create, collection := payload.collection,
      targetIdentity := none, payload := payload, state := .optimistic,
      createdAt := now }
  let store := s.store.put payload
  let log := s.log ++ [op]
  { store := store, groundTruth := s.groundTruth, log := log,
    cachedView := computeQueryView d store s.groundTruth log }

/-- C3 optimistic create is visible immediately.  With an empty Operation Log,
ground truth `[1, 2]` for the "status=open" descriptor, and a Create whose
payload satisfies the descriptor's filter with a fresh temporary identity, the
synchronously recomputed QueryView — produced before any remote response can
exist, since `mutateCreate` performs no remote call — lists exactly the
identities `[1, 2, payload.identity]`: length 3, with the new temporary
identity at the policy-defined position (append, as the descriptor has no
comparator and is not in descending-time order). -/
theorem optimistic_create_visible (p : Record) (cid now : Nat)
    (hcol : p.collection = "ticket")
    (hmatch : openDescriptor.matchesB p = true)
    (h1 : p.identity ≠ 1) (h2 : p.identity ≠ 2) :
    let s := mutateCreate openDescriptor p cid now
      { store := [ticket 1 "open", ticket 2 "open"], groundTruth := [1, 2],
        log := [], cachedView := [] }
    s.cachedView.map (·.identity) = [1, 2, p.identity] ∧
      s.cachedView.length = 3 := by
  intro s
  have hb1 : (p.identity == 1) = false := by simp [h1]
  have hb2 : (p.identity == 2) = false := by simp [h2]
  have hb1r : ((1 : Nat) == p.identity) = false := by simp [Ne.symm h1]
  have hb2r : ((2 : Nat) == p.identity) = false := by simp [Ne.symm h2]
  have hm : (p.getField "status" == some "open") = true := hmatch
  have hview : s.cachedView = [ticket 1 "open", ticket 2 "open", p] := by
    show computeQueryView openDescriptor _ _ _ = _
    simp [computeQueryView, mergeIdentities, relevantOps, sortOps, insertOp,
      applyOp, insertIdentity, paginate, materialize, RecordStore.put,
      RecordStore.get, PendingOperation.target, QueryDescriptor.matchesB,
      openDescriptor, ticket, hcol, hb1, hb2, hb1r, hb2r, hm, h1, h2,
      Ne.symm h1, Ne.symm h2, List.filter, List.find?, List.filterMap]
  rw [hview]
  simp [ticket]

/-- Witness for C3 at the concrete payload `ticket 9 "open"`. -/
theorem optimistic_create_visible_witness :
    (mutateCreate openDescriptor (ticket 9 "open") 7 5
        { store := [ticket 1 "open", ticket 2 "open"], groundTruth := [1, 2],
          log := [], cachedView := [] }).cachedView.map (·.identity) =
        [1, 2, (ticket 9 "open").identity] ∧
      (mutateCreate openDescriptor (ticket 9 "open") 7 5
        { store := [ticket 1 "open", ticket 2 "open"], groundTruth := [1, 2],
          log := [], cachedView := [] }).cachedView.length = 3 :=
  optimistic_create_visible (ticket 9 "open") 7 5 rfl (by decide)
    (by decide) (by decide)

theorem mem_insertSorted (cmp : Record → Record → Ordering)
    (store : RecordStore) (c : String) (r : Record) (i : Nat) :
    ∀ v : List Nat, i ∈ insertSorted cmp store c r i v := by
  intro v
  induction v with
  | nil => simp [insertSorted]
  | cons j js ih =>
    unfold insertSorted
    cases store.get c j with
    | none => simpa using Or.inr ih
    | some rj =>
      by_cases hc : (cmp r rj == Ordering.gt) = true
      · simp only [hc, if_true]
        exact List.mem_cons_of_mem j ih
      · simp only [Bool.not_eq_true] at hc
        simp [hc]

theorem mem_insertIdentity (d : QueryDescriptor) (store : RecordStore)
    (v : List Nat) (i : Nat) : i ∈ insertIdentity d store v i := by
  unfold insertIdentity
  cases d.compare with
  | none =>
    cases d.descendingTime <;> simp
  | some cmp =>
    cases store.get d.collection i with
    | none => simp
    | some r => exact mem_insertSorted cmp store d.collection r i v

/-- Modelled from the spec (§2 data flow, §4.5): a push notification carrying
an updated record is treated like a confirmed remote mutation performed
elsewhere — the pushed record is merged into the Record Store, the view's
ground-truth membership is patched by the §4.2 Update rule, and the view
recomputes. -/
def applyPushUpdate (d : QueryDescriptor) (r : Record) (s : EngineState) :
    EngineState :=
  let store := s.store.put r
  let G := applyUpdateRule d store s.groundTruth r.identity r
  { store := store, groundTruth := G, log := s.log,
    cachedView := computeQueryView d store G s.log }

/-- C4 update changes membership.  For every Update applied by the merge rule:
if the updated record fails the descriptor's filter its identity is removed
from the view while every other identity is kept (and, in the push pipeline,
the record itself remains resolvable in the Record Store); if it newly
satisfies the filter its identity is inserted; otherwise the view is
unchanged.  In particular, for ground truth `[1, 2, 3]` under "status=open", a
push update setting record 2 to status=closed yields QueryView `[1, 3]` while
the Record Store still resolves identity 2. -/
theorem update_changes_membership :
    (∀ (d : QueryDescriptor) (store : RecordStore) (v : List Nat) (i : Nat)
        (r : Record),
      (d.matchesB r = false →
        i ∉ applyUpdateRule d store v i r ∧
          ∀ j ∈ v, j ≠ i → j ∈ applyUpdateRule d store v i r) ∧
      (d.matchesB r = true → v.contains i = false →
        i ∈ applyUpdateRule d store v i r) ∧
      (d.matchesB r = true → v.contains i = true →
        applyUpdateRule d store v i r = v)) ∧
    ((applyPushUpdate openDescriptor (ticket 2 "closed")
          { store := [ticket 1 "open", ticket 2 "open", ticket 3 "open"],
            groundTruth := [1, 2, 3], log := [],
            cachedView := [] }).cachedView.map (·.identity) = [1, 3] ∧
      (applyPushUpdate openDescriptor (ticket 2 "closed")
          { store := [ticket 1 "open", ticket 2 "open", ticket 3 "open"],
            groundTruth := [1, 2, 3], log := [],
            cachedView := [] }).store.get "ticket" 2 =
        some (ticket 2 "closed")) := by
  constructor
  · intro d store v i r
    refine ⟨fun hfail => ?_, fun hok habs => ?_, fun hok hpres => ?_⟩
    · unfold applyUpdateRule
      rw [hfail]
      simp only [Bool.false_eq_true, if_false]
      constructor
      · intro hmem
        have := (List.mem_filter.mp hmem).2
        simp at this
      · intro j hj hne
        exact List.mem_filter.mpr ⟨hj, by simp [hne]⟩
    · unfold applyUpdateRule
      rw [hok, habs]
      simpa using mem_insertIdentity d store v i
    · unfold applyUpdateRule
      rw [hok, hpres]
      simp
  · constructor <;> rfl

/-- Witness for C4: record 2 updated to "closed" fails the filter and its
identity leaves the view. -/
theorem update_changes_membership_witness :
    openDescriptor.matchesB (ticket 2 "closed") = false ∧
      2 ∉ applyUpdateRule openDescriptor
        [ticket 1 "open", ticket 2 "open", ticket 3 "open"] [1, 2, 3] 2
        (ticket 2 "closed") :=
  ⟨by decide,
    ((update_changes_membership.1 openDescriptor
        [ticket 1 "open", ticket 2 "open", ticket 3 "open"] [1, 2, 3] 2
        (ticket 2 "closed")).1 (by decide)).1⟩

/-- Modelled from the spec (§4.4): a registry entry — canonical key, the
shared view instance (identified by its id), and a subscriber refcount. -/
structure ViewEntry where
  key : String
  viewId : Nat
  refCount : Nat
deriving DecidableEq, Repr

/-- Modelled from the spec (§4.4, §4.5): the View Registry, together with the
ordered list of canonical keys for which a ground-truth fetch was issued. -/
structure Registry where
  views : List ViewEntry
  nextId : Nat
  fetched : List String
deriving DecidableEq, Repr

def Registry.empty : Registry := { views := [], nextId := 0, fetched := [] }

/-- Modelled from the spec (§4.4 acquire, §4.5): creates-or-returns by
structural equality of the canonical key.  On a hit the existing view's
refcount is bumped and no fetch is issued; on a miss a fresh view is created
and exactly one ground-truth fetch is issued. -/
def acquire (d : QueryDescriptor) (reg : Registry) : Nat × Registry :=
  match reg.views.find? (fun e => e.key == d.canonicalKey) with
  | some e =>
    (e.viewId,
      { reg with
          views := reg.views.map (fun x =>
            if x.viewId == e.viewId then { x with refCount := x.refCount + 1 }
            else x) })
  | none =>
    let entry : ViewEntry :=
      { key := d.canonicalKey, viewId := reg.nextId, refCount := 1 }
    (reg.nextId,
      { views := entry :: reg.views,
        nextId := reg.nextId + 1,
        fetched := reg.fetched ++ [d.canonicalKey] })

/-- C5 view dedup.  For all descriptors `A` and `B` with equal canonical keys
— structural equality, the descriptors may be independently constructed
objects — acquiring `A` and then `B` on a fresh registry returns the same
QueryView instance and issues exactly one ground-truth fetch. -/
theorem acquire_dedup (A B : QueryDescriptor)
    (h : A.canonicalKey = B.canonicalKey) :
    (acquire B (acquire A Registry.empty).2).1 =
        (acquire A Registry.empty).1 ∧
      (acquire B (acquire A Registry.empty).2).2.fetched.length = 1 := by
  simp [acquire, Registry.empty, List.find?, h]

/-- Witness for C5: two independently constructed descriptors sharing the
canonical key "ticket?status=open" resolve to one view and one fetch. -/
theorem acquire_dedup_witness :
    (acquire { openDescriptor with limit := none }
          (acquire openDescriptor Registry.empty).2).1 =
        (acquire openDescriptor Registry.empty).1 ∧
      (acquire { openDescriptor with limit := none }
          (acquire openDescriptor Registry.empty).2).2.fetched.length = 1 :=
  acquire_dedup openDescriptor { openDescriptor with limit := none } rfl

/-- Modelled from the spec (§4.3): the legal lifecycle transitions —
`Optimistic→Submitted`, `Submitted→Confirmed`, `Submitted→Rejected`, and the
direct `Optimistic→Rejected` path for local pre-submission validation
failure.  Transitions are the only legal mutations. -/
def canStep : OpState → OpState → Bool
  | .optimistic, .submitted => true
  | .submitted, .confirmed => true
  | .submitted, .rejected => true
  | .optimistic, .rejected => true
  | _, _ => false

/-- Modelled from the spec (§3/§4.3): `Confirmed` and `Rejected` are the
terminal outcomes. -/
def OpState.isTerminal : OpState → Bool
  | .confirmed => true
  | .rejected => true
  | _ => false

/-- A reachable lifecycle history of one operation (one correlation id):
consecutive states joined by legal transitions. -/
def isLifecycleTrace : List OpState → Bool
  | [] => true
  | [_] => true
  | a :: b :: rest => canStep a b && isLifecycleTrace (b :: rest)

theorem canStep_source_not_terminal (a b : OpState) (h : canStep a b = true) :
    a.isTerminal = false := by
  cases a <;> cases b <;> simp_all [canStep, OpState.isTerminal]

/-- C6 terminal-state invariant.  No lifecycle transition leaves `Confirmed`
or `Rejected`, and along every reachable transition sequence of one operation
at most one terminal state is ever visited — a correlation id has at most one
terminal outcome and is never resurrected. -/
theorem lifecycle_terminal_invariant :
    (∀ a b : OpState, a.isTerminal = true → canStep a b = false) ∧
      ∀ l : List OpState, isLifecycleTrace l = true →
        l.countP (fun s => s.isTerminal) ≤ 1 := by
  constructor
  · intro a b h
    by_contra hc
    simp only [Bool.not_eq_false] at hc
    rw [canStep_source_not_terminal a b hc] at h
    exact Bool.false_ne_true h
  · intro l
    induction l with
    | nil => intro _; simp
    | cons a tl ih =>
      intro h
      cases tl with
      | nil =>
        simp only [List.countP_cons, List.countP_nil]
        split <;> simp
      | cons b rest =>
        simp only [isLifecycleTrace, Bool.and_eq_true] at h
        obtain ⟨hstep, htl⟩ := h
        have hat : a.isTerminal = false := canStep_source_not_terminal a b hstep
        rw [List.countP_cons]
        simp only [hat, Bool.false_eq_true, if_false, Nat.add_zero]
        exact ih htl

/-- Witness for C6: the full Optimistic→Submitted→Confirmed history is a
legal trace and visits exactly one terminal state. -/
theorem lifecycle_terminal_invariant_witness :
    isLifecycleTrace [OpState.optimistic, OpState.submitted,
        OpState.confirmed] = true ∧
      List.countP (fun s => s.isTerminal)
          [OpState.optimistic, OpState.submitted, OpState.confirmed] ≤ 1 ∧
      canStep OpState.confirmed OpState.optimistic = false :=
  ⟨by decide,
    lifecycle_terminal_invariant.2 _ (by decide),
    lifecycle_terminal_invariant.1 OpState.confirmed OpState.optimistic
      (by decide)⟩

/-- Modelled from the spec (§6): a push-channel event
`{collection, identity, kind, record|null}`. -/
structure PushEvent where
  collection : String
  identity : Nat
  kind : OpKind
  record : Option Record

/-- The synchronizer's reaction to a push that could affect a view's
membership: patch membership locally, or refetch the descriptor's ground
truth wholesale. -/
inductive SyncAction where
  | patchLocal (newGroundTruth : List Nat)
  | refetch (descriptorKey : String)
deriving DecidableEq, Repr

/-- Modelled from the spec (§4.5, §9, custom-querysets doc "Live Updates"):
on a push notification affecting a view, patch membership locally with the
§4.2 Update/Delete rule when the descriptor carries a local predicate
evaluator; when the filter cannot be evaluated locally with confidence — the
`matches` evaluator is absent, e.g. server-only or custom-queryset logic —
fall back to a full refetch of the QueryDescriptor's ground truth. -/
def handlePush (d : QueryDescriptor) (store : RecordStore) (G : List Nat)
    (e : PushEvent) : SyncAction :=
  match d.matchesEval with
  | none => .refetch d.canonicalKey
  | some _ =>
    match e.kind, e.record with
    | .delete, _ => .patchLocal (List.filter (fun j => !(j == e.identity)) G)
    | _, some r => .patchLocal (applyUpdateRule d store G e.identity r)
    | _, none => .refetch d.canonicalKey

/-- C7 refetch fallback.  For every push event and every view whose
descriptor lacks a local `matches` evaluator (server-only or custom-queryset
filtering), the synchronizer issues a full refetch of that descriptor's
ground truth and never patches the view's membership locally. -/
theorem refetch_fallback (d : QueryDescriptor) (store : RecordStore)
    (G : List Nat) (e : PushEvent) (h : d.matchesEval = none) :
    handlePush d store G e = .refetch d.canonicalKey ∧
      ∀ v : List Nat, handlePush d store G e ≠ .patchLocal v := by
  unfold handlePush
  rw [h]
  exact ⟨rfl, fun v hc => by simp at hc⟩

/-- The "active_products" custom-queryset descriptor: its filtering logic
lives on the server, so no local evaluator exists. -/
def customQuerysetDescriptor : QueryDescriptor :=
  { collection := "product", canonicalKey := "product?custom=active_products",
    matchesEval := none, compare := none, descendingTime := false,
    offset := 0, limit := none }

/-- Witness for C7: a push update against the custom-queryset view triggers a
refetch. -/
theorem refetch_fallback_witness :
    handlePush customQuerysetDescriptor [] [1, 2]
        { collection := "product", identity := 1, kind := .update,
          record := some (ticket 1 "open") } =
        .refetch customQuerysetDescriptor.canonicalKey ∧
      ∀ v : List Nat, handlePush customQuerysetDescriptor [] [1, 2]
          { collection := "product", identity := 1, kind := .update,
            record := some (ticket 1 "open") } ≠ .patchLocal v :=
  refetch_fallback customQuerysetDescriptor [] [1, 2]
    { collection := "product", identity := 1, kind := .update,
      record := some (ticket 1 "open") } rfl

/-- Modelled from the spec (§6 persisted state layout): three logical tables
of independently serializable, independently droppable raw entries. -/
structure PersistedBlob (ρ γ ω : Type) where
  recordEntries : List ρ
  groundTruthEntries : List γ
  opLogEntries : List ω

/-- The state available after startup hydration. -/
structure HydratedState where
  records : List Record
  groundTruth : List (String × List Nat)
  opLog : List PendingOperation
deriving DecidableEq

/-- Modelled from the spec (§4.6 corruption handling): hydrate one persisted
table, dropping each entry whose deserialization fails and keeping every
other. -/
def hydrateTable {α β : Type} (decode : α → Option β) (entries : List α) :
    List β :=
  entries.filterMap decode

/-- Modelled from the spec (§4.6): startup hydration of the three persisted
tables — a total function: no deserialization failure can abort it. -/
def hydrateStartup {ρ γ ω : Type} (decR : ρ → Option Record)
    (decG : γ → Option (String × List Nat))
    (decO : ω → Option PendingOperation) (blob : PersistedBlob ρ γ ω) :
    HydratedState :=
  { records := hydrateTable decR blob.recordEntries,
    groundTruth := hydrateTable decG blob.groundTruthEntries,
    opLog := hydrateTable decO blob.opLogEntries }

/-- C8 corrupt persisted state is never fatal.  For every decoder and every
persisted table containing an entry whose deserialization fails, hydration
drops exactly that entry — the hydrated table equals the hydration of the
surrounding entries — and every entry that does deserialize is still
hydrated; at the startup level, a blob with a corrupt record entry hydrates
to exactly the state of the blob without it, and hydration is a total
function, so startup always completes. -/
theorem hydration_drops_only_corrupt {α β ρ γ ω : Type}
    (decode : α → Option β) (xs ys : List α) (bad : α)
    (hbad : decode bad = none) (decR : ρ → Option Record)
    (decG : γ → Option (String × List Nat))
    (decO : ω → Option PendingOperation) (rxs rys : List ρ) (badR : ρ)
    (gE : List γ) (oE : List ω) (hbadR : decR badR = none) :
    hydrateTable decode (xs ++ bad :: ys) =
        hydrateTable decode xs ++ hydrateTable decode ys ∧
      (∀ e ∈ xs ++ ys, ∀ b, decode e = some b →
        b ∈ hydrateTable decode (xs ++ bad :: ys)) ∧
      hydrateStartup decR decG decO
          { recordEntries := rxs ++ badR :: rys, groundTruthEntries := gE,
            opLogEntries := oE } =
        hydrateStartup decR decG decO
          { recordEntries := rxs ++ rys, groundTruthEntries := gE,
            opLogEntries := oE } := by
  have key : ∀ (δ : Type) (dec : α → Option δ), dec bad = none →
      List.filterMap dec (xs ++ bad :: ys) =
        List.filterMap dec xs ++ List.filterMap dec ys := by
    intro δ dec hdec
    rw [List.filterMap_append, List.filterMap_cons, hdec]
  refine ⟨key β decode hbad, ?_, ?_⟩
  · intro e he b hb
    unfold hydrateTable
    rw [List.filterMap_append, List.filterMap_cons, hbad]
    rcases List.mem_append.mp he with h | h
    · exact List.mem_append_left _ (List.mem_filterMap.mpr ⟨e, h, hb⟩)
    · exact List.mem_append_right _ (List.mem_filterMap.mpr ⟨e, h, hb⟩)
  · unfold hydrateStartup hydrateTable
    simp only [List.filterMap_append, List.filterMap_cons, hbadR]

/-- A small concrete record decoder for the hydration witness: even raw
values are corrupt, odd ones decode. -/
def decodeRecordEntry (n : Nat) : Option Record :=
  if n % 2 = 0 then none else some (ticket n "open")

/-- Witness for C8: hydrating `[1, 0, 3]` with `decodeRecordEntry` drops the
corrupt entry `0` and keeps records 1 and 3; startup completes with exactly
the state of the uncorrupted blob. -/
theorem hydration_drops_only_corrupt_witness :
    hydrateTable decodeRecordEntry ([1] ++ 0 :: [3]) =
        hydrateTable decodeRecordEntry [1] ++
          hydrateTable decodeRecordEntry [3] ∧
      (∀ e ∈ [1] ++ [3], ∀ b, decodeRecordEntry e = some b →
        b ∈ hydrateTable decodeRecordEntry ([1] ++ 0 :: [3])) ∧
      hydrateStartup decodeRecordEntry (fun g : String × List Nat => some g)
          (fun o : PendingOperation => some o)
          { recordEntries := [1] ++ 0 :: [3],
            groundTruthEntries := [("k", [1, 2])], opLogEntries := [] } =
        hydrateStartup decodeRecordEntry (fun g : String × List Nat => some g)
          (fun o : PendingOperation => some o)
          { recordEntries := [1] ++ [3],
            groundTruthEntries := [("k", [1, 2])], opLogEntries := [] } :=
  hydration_drops_only_corrupt decodeRecordEntry [1] [3] 0 (by decide)
    decodeRecordEntry (fun g => some g) (fun o => some o) [1] [3] 0
    [("k", [1, 2])] [] (by decide)

/-- Errors `get()` rejects with, per the error-handling guide: `DoesNotExist`
when no object matches, `MultipleObjectsReturned` when several do. -/
inductive QueryError where
  | doesNotExist
  | multipleObjectsReturned
deriving DecidableEq, Repr

/-- Modelled from the spec/docs (orm.md "Evaluation": `get(conditions)`
returns a single instance and throws if 0 or more than 1 are found; error
guide "DoesNotExist"/"MultipleObjectsReturned"). -/
def getOne (cond : Record → Bool) (records : List Record) :
    Except QueryError Record :=
  match records.filter cond with
  | [] => .error .doesNotExist
  | [r] => .ok r
  | _ :: _ :: _ => .error .multipleObjectsReturned

/-- C9 get resolves exactly on a unique match.  `get(conditions)` resolves
with a record precisely when exactly one record matches the conditions; it
rejects with `DoesNotExist` on zero matches and with
`MultipleObjectsReturned` on more than one — it never resolves in the
zero-match or many-match case. -/
theorem get_unique_match (cond : Record → Bool) (records : List Record) :
    (∀ r, getOne cond records = .ok r ↔ records.filter cond = [r]) ∧
      (records.filter cond = [] →
        getOne cond records = .error .doesNotExist) ∧
      (2 ≤ (records.filter cond).length →
        getOne cond records = .error .multipleObjectsReturned) := by
  refine ⟨fun r => ?_, fun h0 => ?_, fun h2 => ?_⟩
  · unfold getOne
    constructor
    · intro h
      rcases hf : records.filter cond with _ | ⟨a, _ | ⟨b, tl⟩⟩ <;>
        rw [hf] at h <;> simp_all
    · intro h
      rw [h]
  · unfold getOne
    rw [h0]
  · unfold getOne
    rcases hf : records.filter cond with _ | ⟨a, _ | ⟨b, tl⟩⟩ <;>
      rw [hf] at h2 <;> simp_all

/-- Witness for C9: among three tickets exactly one has status "closed", and
`get` resolves with it; filtering on "missing" rejects with DoesNotExist. -/
theorem get_unique_match_witness :
    (getOne (fun r => r.getField "status" == some "closed")
        [ticket 1 "open", ticket 2 "closed", ticket 3 "open"] =
      .ok (ticket 2 "closed")) ∧
      getOne (fun r => r.getField "status" == some "missing")
        [ticket 1 "open", ticket 2 "closed", ticket 3 "open"] =
      .error .doesNotExist :=
  ⟨(get_unique_match (fun r => r.getField "status" == some "closed")
      [ticket 1 "open", ticket 2 "closed", ticket 3 "open"]).1
        (ticket 2 "closed") |>.mpr (by decide),
    (get_unique_match (fun r => r.getField "status" == some "missing")
      [ticket 1 "open", ticket 2 "closed", ticket 3 "open"]).2.1 (by decide)⟩

/-- Modelled from the docs (orm.md "Bulk Operation Return Values"): record
one affected record of the given model in the per-model mapping. -/
def bumpCount (name : String) : List (String × Nat) → List (String × Nat)
  | [] => [(name, 1)]
  | (k, v) :: rest =>
    if k == name then (k, v + 1) :: rest else (k, v) :: bumpCount name rest

/-- The per-model mapping built from the affected records' model names. -/
def modelCounts (names : List String) : List (String × Nat) :=
  names.foldl (fun acc n => bumpCount n acc) []

/-- Modelled from the docs (orm.md): both bulk `update(data)` and bulk
`delete()` return the pair `[count, mapping]` over the affected records. -/
def bulkResult (affected : List Record) : Nat × List (String × Nat) :=
  (affected.length, modelCounts (affected.map (·.collection)))

/-- The count a mapping assigns to a model name (0 when absent). -/
def countFor (name : String) (mapping : List (String × Nat)) : Nat :=
  ((mapping.find? (fun p => p.1 == name)).map (·.2)).getD 0

theorem sum_bumpCount (n : String) (acc : List (String × Nat)) :
    ((bumpCount n acc).map (·.2)).sum = ((acc.map (·.2)).sum) + 1 := by
  induction acc with
  | nil => simp [bumpCount]
  | cons p rest ih =>
    obtain ⟨k, v⟩ := p
    unfold bumpCount
    by_cases hk : (k == n) = true
    · simp only [hk, if_true, List.map_cons, List.sum_cons]
      omega
    · simp only [Bool.not_eq_true] at hk
      simp only [hk, Bool.false_eq_true, if_false, List.map_cons,
        List.sum_cons, ih]
      omega

theorem sum_foldl_bumpCount (names : List String) :
    ∀ acc : List (String × Nat),
      (((names.foldl (fun a m => bumpCount m a) acc)).map (·.2)).sum =
        ((acc.map (·.2)).sum) + names.length := by
  induction names with
  | nil => intro acc; simp
  | cons m ms ih =>
    intro acc
    simp only [List.foldl_cons, List.length_cons]
    rw [ih (bumpCount m acc), sum_bumpCount]
    omega

theorem countFor_bumpCount (n m : String) (acc : List (String × Nat)) :
    countFor n (bumpCount m acc) =
      countFor n acc + (if m == n then 1 else 0) := by
  induction acc with
  | nil =>
    by_cases hnm : (m == n) = true
    · simp [bumpCount, countFor, List.find?, hnm]
    · simp only [Bool.not_eq_true] at hnm
      simp [bumpCount, countFor, List.find?, hnm]
  | cons p rest ih =>
    obtain ⟨k, v⟩ := p
    unfold bumpCount
    by_cases hkm : (k == m) = true
    · have hkm' : k = m := by simpa using hkm
      subst hkm'
      by_cases hkn : (k == n) = true
      · simp [countFor, List.find?, hkn]
      · simp only [Bool.not_eq_true] at hkn
        simp [countFor, List.find?, hkn, hkm]
    · simp only [Bool.not_eq_true] at hkm
      simp only [hkm, Bool.false_eq_true, if_false]
      by_cases hkn : (k == n) = true
      · have hk' : k = n := by simpa using hkn
        have hmn : (m == n) = false := by
          have : ¬ m = n := by
            intro hcontra
            subst hcontra
            subst hk'
            simp at hkm
          simpa using this
        simp [countFor, List.find?, hkn, hmn]
      · simp only [Bool.not_eq_true] at hkn
        simp only [countFor, List.find?] at ih ⊢
        simp only [hkn]
        exact ih

theorem countFor_modelCounts (names : List String) :
    ∀ (acc : List (String × Nat)) (n : String),
      countFor n (names.foldl (fun a m => bumpCount m a) acc) =
        countFor n acc + names.countP (fun m => m == n) := by
  induction names with
  | nil => intro acc n; simp
  | cons m ms ih =>
    intro acc n
    simp only [List.foldl_cons, List.countP_cons]
    rw [ih (bumpCount m acc) n, countFor_bumpCount]
    by_cases hmn : (m == n) = true
    · simp [hmn]
      omega
    · simp only [Bool.not_eq_true] at hmn
      simp [hmn]

/-- C10 bulk return values.  For every bulk `update(data)` or `delete()`, the
result is the pair `[count, mapping]` where the mapping assigns to each
affected model name the number of its affected records, and `count` — the
total number of affected records — equals the sum of the values in the
mapping. -/
theorem bulk_result_counts (affected : List Record) :
    (bulkResult affected).1 = ((bulkResult affected).2.map (·.2)).sum ∧
      ∀ name : String,
        countFor name (bulkResult affected).2 =
          (affected.filter (fun r => r.collection == name)).length := by
  constructor
  · show affected.length = _
    unfold bulkResult modelCounts
    rw [sum_foldl_bumpCount]
    simp
  · intro name
    show countFor name (modelCounts (affected.map (·.collection))) = _
    unfold modelCounts
    rw [countFor_modelCounts _ [] name]
    rw [← List.countP_eq_length_filter]
    simp only [countFor, List.find?, List.countP_map, Option.map_none',
      Option.getD_none, Nat.zero_add]
    exact List.countP_congr (fun r _ => Iff.rfl)

end StateZero
